import Mathlib

/-!
Shallow embedding of the TacticGame repository (src/Camera.h, src/Camera.cpp,
src/Shader.h, src/Shader.cpp, src/main.cpp) and proofs about it.

The C++ code works on `glm::vec3` / `glm::mat4` over `float` and calls the
C library's `cos`, `sin`, `sqrt`.  The embedding is generic over a linear
ordered field `α` with the trigonometric / square-root functions passed as
parameters; theorems instantiate `α := ℝ` with `Real.cos`, `Real.sin`,
`Real.sqrt` and `Real.pi`, i.e. the exact-real-arithmetic reading of the
float code.  Stateful C++ (member functions mutating `Camera`, the globals
of `main.cpp`) becomes explicit state passing on `Camera α` / `MainState α`.
-/

namespace TacticGame

/-- `glm::vec3`. -/
structure Vec3 (α : Type) where
  x : α
  y : α
  z : α
deriving DecidableEq

namespace Vec3

variable {α : Type} [LinearOrderedField α]

/-- Componentwise vector addition (glm `operator+`). -/
def add (a b : Vec3 α) : Vec3 α := ⟨a.x + b.x, a.y + b.y, a.z + b.z⟩

/-- Componentwise vector subtraction (glm `operator-`). -/
def sub (a b : Vec3 α) : Vec3 α := ⟨a.x - b.x, a.y - b.y, a.z - b.z⟩

/-- Scalar multiplication (glm `scalar * vec` / `vec * scalar`). -/
def smul (c : α) (v : Vec3 α) : Vec3 α := ⟨c * v.x, c * v.y, c * v.z⟩

/-- `glm::dot`. -/
def dot (a b : Vec3 α) : α := a.x * b.x + a.y * b.y + a.z * b.z

/-- `glm::cross`. -/
def cross (a b : Vec3 α) : Vec3 α :=
  ⟨a.y * b.z - a.z * b.y, a.z * b.x - a.x * b.z, a.x * b.y - a.y * b.x⟩

/-- `glm::normalize`: the vector scaled by the inverse square root of its
squared length.  The square-root function is a parameter (instantiated with
`Real.sqrt`). -/
def normalize (sqrt : α → α) (v : Vec3 α) : Vec3 α :=
  smul (1 / sqrt (dot v v)) v

end Vec3

/-- `glm::radians`: degrees to radians, `x * (pi / 180)`. -/
def radians {α : Type} [LinearOrderedField α] (pi x : α) : α := x * (pi / 180)

/-- The yaw/pitch-to-direction conversion shared by `Camera::handleMouse`
(src/Camera.cpp lines 100-103) and `mouse_callback` (src/main.cpp lines
181-184):
`(cos(radians(yaw))*cos(radians(pitch)), sin(radians(pitch)),
  sin(radians(yaw))*cos(radians(pitch)))`. -/
def direction {α : Type} [LinearOrderedField α] (cos sin : α → α) (pi yaw pitch : α) :
    Vec3 α :=
  ⟨cos (radians pi yaw) * cos (radians pi pitch),
   sin (radians pi pitch),
   sin (radians pi yaw) * cos (radians pi pitch)⟩

/-- `enum class CameraMode` from src/Camera.h. -/
inductive CameraMode where
  | Isometric
  | Free
deriving DecidableEq

/-- The state of `class Camera` (private members of src/Camera.h). -/
structure Camera (α : Type) where
  mode : CameraMode
  isoCamPos : Vec3 α
  freeCamPos : Vec3 α
  cameraFront : Vec3 α
  cameraUp : Vec3 α
  yaw : α
  pitch : α
  firstMouse : Bool
  lastX : α
  lastY : α
  freeCamSpeed : α
  mouseSensitivity : α
  zoomLevel : α

namespace Camera

variable {α : Type} [LinearOrderedField α]

/-- `Camera::Camera()` (src/Camera.cpp lines 10-25): the default-constructed
camera. -/
def init : Camera α where
  mode := CameraMode.Isometric
  isoCamPos := ⟨2, 2, 2⟩
  freeCamPos := ⟨2, 2, 2⟩
  cameraFront := ⟨0, 0, -1⟩
  cameraUp := ⟨0, 1, 0⟩
  yaw := -90
  pitch := 0
  firstMouse := true
  lastX := 400
  lastY := 300
  freeCamSpeed := 1 / 20
  mouseSensitivity := 1 / 10
  zoomLevel := 10

/-- `Camera::toggleMode()` (src/Camera.cpp lines 27-35). -/
def toggleMode (cam : Camera α) : Camera α :=
  { cam with
    mode := if cam.mode = CameraMode.Isometric then CameraMode.Free
            else CameraMode.Isometric
    firstMouse := true }

/-- `Camera::updateIsometric()` (src/Camera.cpp lines 39-43): an empty body. -/
def updateIsometric (cam : Camera α) : Camera α := cam

/-- `Camera::updateFree(...)` (src/Camera.cpp lines 46-69). -/
def updateFree (sqrt : α → α) (cam : Camera α) (deltaTime : α)
    (upArrow downArrow leftArrow rightArrow : Bool) : Camera α :=
  let forward := cam.cameraFront
  let rightVec := Vec3.normalize sqrt (Vec3.cross cam.cameraFront cam.cameraUp)
  let p0 := cam.freeCamPos
  let p1 := if upArrow then Vec3.add p0 (Vec3.smul (cam.freeCamSpeed * deltaTime) forward)
            else p0
  let p2 := if downArrow then Vec3.sub p1 (Vec3.smul (cam.freeCamSpeed * deltaTime) forward)
            else p1
  let p3 := if leftArrow then Vec3.sub p2 (Vec3.smul (cam.freeCamSpeed * deltaTime) rightVec)
            else p2
  let p4 := if rightArrow then Vec3.add p3 (Vec3.smul (cam.freeCamSpeed * deltaTime) rightVec)
            else p3
  { cam with freeCamPos := p4 }

/-- `Camera::handleMouse(double, double)` (src/Camera.cpp lines 72-105). -/
def handleMouse (cos sin sqrt : α → α) (pi : α) (cam : Camera α)
    (xpos ypos : α) : Camera α :=
  if cam.mode ≠ CameraMode.Free then cam
  else
    let lX := if cam.firstMouse then xpos else cam.lastX
    let lY := if cam.firstMouse then ypos else cam.lastY
    let fm := if cam.firstMouse then false else cam.firstMouse
    let xoffset := (xpos - lX) * cam.mouseSensitivity
    let yoffset := (lY - ypos) * cam.mouseSensitivity
    let yaw1 := cam.yaw + xoffset
    let pitch0 := cam.pitch + yoffset
    let pitch1 := if pitch0 > 89 then 89 else pitch0
    let pitch2 := if pitch1 < -89 then -89 else pitch1
    { cam with
      lastX := xpos
      lastY := ypos
      firstMouse := fm
      yaw := yaw1
      pitch := pitch2
      cameraFront := Vec3.normalize sqrt (direction cos sin pi yaw1 pitch2) }

end Camera

/-- A 4x4 matrix in glm's column-major layout: entry `eCR` is `m[C][R]`. -/
structure Mat4 (α : Type) where
  e00 : α
  e01 : α
  e02 : α
  e03 : α
  e10 : α
  e11 : α
  e12 : α
  e13 : α
  e20 : α
  e21 : α
  e22 : α
  e23 : α
  e30 : α
  e31 : α
  e32 : α
  e33 : α

/-- `glm::lookAt` (right-handed): forward, side and up basis vectors packed
into a view matrix. -/
def lookAt {α : Type} [LinearOrderedField α] (sqrt : α → α)
    (eye center up : Vec3 α) : Mat4 α :=
  let f := Vec3.normalize sqrt (Vec3.sub center eye)
  let s := Vec3.normalize sqrt (Vec3.cross f up)
  let u := Vec3.cross s f
  { e00 := s.x, e01 := u.x, e02 := -f.x, e03 := 0
    e10 := s.y, e11 := u.y, e12 := -f.y, e13 := 0
    e20 := s.z, e21 := u.z, e22 := -f.z, e23 := 0
    e30 := -(Vec3.dot s eye), e31 := -(Vec3.dot u eye), e32 := Vec3.dot f eye, e33 := 1 }

/-- `Camera::getViewMatrix()` (src/Camera.cpp lines 108-120). -/
def Camera.getViewMatrix {α : Type} [LinearOrderedField α] (sqrt : α → α)
    (cam : Camera α) : Mat4 α :=
  if cam.mode = CameraMode.Isometric then
    lookAt sqrt cam.isoCamPos ⟨0, 0, 0⟩ cam.cameraUp
  else
    lookAt sqrt cam.freeCamPos (Vec3.add cam.freeCamPos cam.cameraFront) cam.cameraUp

/-! ## The global state and event handlers of src/main.cpp -/

/-- The mutable globals of src/main.cpp (lines 17-46) that the callbacks and
the render loop read and write. -/
structure MainState (α : Type) where
  cameraPos : Vec3 α
  playerPos : Vec3 α
  playerMoveSpeed : α
  zoomLevel : α
  isFreeCamera : Bool
  cPressed : Bool
  freeCamPos : Vec3 α
  cameraFront : Vec3 α
  cameraUp : Vec3 α
  yaw : α
  pitch : α
  lastX : α
  lastY : α
  firstMouse : Bool
  freeCamSpeed : α
  mouseSensitivity : α

/-- The initial values of the globals of src/main.cpp (lines 17-46). -/
def initMainState {α : Type} [LinearOrderedField α] : MainState α where
  cameraPos := ⟨2, 2, 2⟩
  playerPos := ⟨0, 0, 0⟩
  playerMoveSpeed := 1 / 50
  zoomLevel := 10
  isFreeCamera := false
  cPressed := false
  freeCamPos := ⟨2, 2, 2⟩
  cameraFront := ⟨0, 0, -1⟩
  cameraUp := ⟨0, 1, 0⟩
  yaw := -90
  pitch := 0
  lastX := 400
  lastY := 300
  firstMouse := true
  freeCamSpeed := 1 / 20
  mouseSensitivity := 1 / 10

/-- `scroll_callback` (src/main.cpp lines 143-147). -/
def scroll_callback {α : Type} [LinearOrderedField α] (st : MainState α)
    (yoffset : α) : MainState α :=
  let z := st.zoomLevel - yoffset * (1 / 10)
  { st with zoomLevel := if z < 1 / 10 then 1 / 10 else z }

/-- `mouse_callback` (src/main.cpp lines 152-186). -/
def mouse_callback {α : Type} [LinearOrderedField α] (cos sin sqrt : α → α)
    (pi : α) (st : MainState α) (xpos ypos : α) : MainState α :=
  if !st.isFreeCamera then st
  else
    let lX := if st.firstMouse then xpos else st.lastX
    let lY := if st.firstMouse then ypos else st.lastY
    let fm := if st.firstMouse then false else st.firstMouse
    let xoffset := (xpos - lX) * st.mouseSensitivity
    let yoffset := (lY - ypos) * st.mouseSensitivity
    let yaw1 := st.yaw + xoffset
    let pitch0 := st.pitch + yoffset
    let pitch1 := if pitch0 > 89 then 89 else pitch0
    let pitch2 := if pitch1 < -89 then -89 else pitch1
    { st with
      lastX := xpos
      lastY := ypos
      firstMouse := fm
      yaw := yaw1
      pitch := pitch2
      cameraFront := Vec3.normalize sqrt (direction cos sin pi yaw1 pitch2) }

/-- The keyboard state the render loop polls once per frame
(`glfwGetKey` results, `true` = `GLFW_PRESS`). -/
structure Keys where
  w : Bool
  s : Bool
  a : Bool
  d : Bool
  up : Bool
  down : Bool
  left : Bool
  right : Bool

/-- The C-key toggle section of the render loop (src/main.cpp lines 484-492);
`cKey` is the polled state of `GLFW_KEY_C`. -/
def handleCameraToggle {α : Type} (st : MainState α) (cKey : Bool) : MainState α :=
  let st1 :=
    if cKey && !st.cPressed then
      { st with isFreeCamera := !st.isFreeCamera, cPressed := true, firstMouse := true }
    else st
  if !cKey then { st1 with cPressed := false } else st1

/-- The movement section of the render loop (src/main.cpp lines 494-526):
W/S/A/D move the player sphere in isometric mode, the arrow keys move the
free camera in free mode. -/
def handleMovement {α : Type} [LinearOrderedField α] (sqrt : α → α)
    (st : MainState α) (keys : Keys) : MainState α :=
  if !st.isFreeCamera then
    let q0 := st.playerPos
    let q1 := if keys.w then { q0 with z := q0.z - st.playerMoveSpeed } else q0
    let q2 := if keys.s then { q1 with z := q1.z + st.playerMoveSpeed } else q1
    let q3 := if keys.a then { q2 with x := q2.x - st.playerMoveSpeed } else q2
    let q4 := if keys.d then { q3 with x := q3.x + st.playerMoveSpeed } else q3
    { st with playerPos := q4 }
  else
    let c0 := st.freeCamPos
    let c1 := if keys.up then Vec3.add c0 (Vec3.smul st.freeCamSpeed st.cameraFront) else c0
    let c2 := if keys.down then Vec3.sub c1 (Vec3.smul st.freeCamSpeed st.cameraFront) else c1
    let camRight := Vec3.normalize sqrt (Vec3.cross st.cameraFront st.cameraUp)
    let c3 := if keys.left then Vec3.sub c2 (Vec3.smul st.freeCamSpeed camRight) else c2
    let c4 := if keys.right then Vec3.add c3 (Vec3.smul st.freeCamSpeed camRight) else c3
    { st with freeCamPos := c4 }

/-- The per-frame view-matrix computation of src/main.cpp lines 536-552. -/
def computeView {α : Type} [LinearOrderedField α] (sqrt : α → α)
    (st : MainState α) : Mat4 α :=
  if !st.isFreeCamera then
    lookAt sqrt st.cameraPos ⟨0, 0, 0⟩ ⟨0, 1, 0⟩
  else
    lookAt sqrt st.freeCamPos (Vec3.add st.freeCamPos st.cameraFront) st.cameraUp

/-- An event processed by src/main.cpp: a GLFW scroll or cursor callback
(delivered by `glfwPollEvents`) or one iteration of the input section of the
render loop. -/
inductive MainEvent (α : Type) where
  | scroll (yoffset : α)
  | mouse (xpos ypos : α)
  | frame (cKey : Bool) (keys : Keys)

/-- One event step of src/main.cpp: callbacks dispatch to their handlers; a
frame runs the C-toggle section then the movement section. -/
def mainStep {α : Type} [LinearOrderedField α] (cos sin sqrt : α → α) (pi : α)
    (st : MainState α) : MainEvent α → MainState α
  | MainEvent.scroll yoffset => scroll_callback st yoffset
  | MainEvent.mouse xpos ypos => mouse_callback cos sin sqrt pi st xpos ypos
  | MainEvent.frame cKey keys => handleMovement sqrt (handleCameraToggle st cKey) keys

/-- Run a sequence of src/main.cpp events from a state. -/
def runMain {α : Type} [LinearOrderedField α] (cos sin sqrt : α → α) (pi : α)
    (st : MainState α) (es : List (MainEvent α)) : MainState α :=
  es.foldl (mainStep cos sin sqrt pi) st

/-! ## Camera operation sequences -/

/-- One call to a mutating `Camera` member function. -/
inductive CameraOp (α : Type) where
  | toggle
  | updateIso
  | updateFreeOp (deltaTime : α) (upArrow downArrow leftArrow rightArrow : Bool)
  | mouse (xpos ypos : α)

/-- Apply one `Camera` member-function call to a camera state. -/
def Camera.applyOp {α : Type} [LinearOrderedField α] (cos sin sqrt : α → α)
    (pi : α) (cam : Camera α) : CameraOp α → Camera α
  | CameraOp.toggle => cam.toggleMode
  | CameraOp.updateIso => cam.updateIsometric
  | CameraOp.updateFreeOp dt u d l r => cam.updateFree sqrt dt u d l r
  | CameraOp.mouse x y => cam.handleMouse cos sin sqrt pi x y

/-- Apply a sequence of `Camera` member-function calls. -/
def Camera.applyOps {α : Type} [LinearOrderedField α] (cos sin sqrt : α → α)
    (pi : α) (cam : Camera α) (ops : List (CameraOp α)) : Camera α :=
  ops.foldl (Camera.applyOp cos sin sqrt pi) cam

/-! ## UV-sphere tessellation (`createSphereVAO`, src/main.cpp lines 258-342)

`createSphereVAO` fills a `std::vector<float> vertices` and a
`std::vector<unsigned int> indices` and uploads them to GL buffers; the two
pure vectors are embedded below. -/

/-- The single vertex that iteration `(i, j)` of the vertex loops of
`createSphereVAO` (src/main.cpp lines 266-293) pushes: position `(x, y, z)`,
texture coordinates `(u, v)` and normal `(nx, ny, nz)`. -/
structure SphereVertex (α : Type) where
  px : α
  py : α
  pz : α
  u : α
  v : α
  nx : α
  ny : α
  nz : α

/-- The vertex data computed at stack `i`, sector `j` by `createSphereVAO`
(src/main.cpp lines 267-291). -/
def mkSphereVertex {α : Type} [LinearOrderedField α] (cos sin : α → α)
    (pi radius : α) (sectorCount stackCount i j : ℕ) : SphereVertex α :=
  let stackAngle := pi / 2 - (i : α) * pi / (stackCount : α)
  let xy := radius * cos stackAngle
  let y := radius * sin stackAngle
  let sectorAngle := (j : α) * 2 * pi / (sectorCount : α)
  let x := xy * cos sectorAngle
  let z := xy * sin sectorAngle
  let lengthInv := 1 / radius
  { px := x, py := y, pz := z
    u := (j : α) / (sectorCount : α), v := (i : α) / (stackCount : α)
    nx := x * lengthInv, ny := y * lengthInv, nz := z * lengthInv }

/-- The eight floats pushed onto `vertices` at stack `i`, sector `j`
(src/main.cpp lines 284-291). -/
def sphereVertexFloats {α : Type} [LinearOrderedField α] (cos sin : α → α)
    (pi radius : α) (sectorCount stackCount i j : ℕ) : List α :=
  let w := mkSphereVertex cos sin pi radius sectorCount stackCount i j
  [w.px, w.py, w.pz, w.u, w.v, w.nx, w.ny, w.nz]

/-- The full `vertices` vector built by `createSphereVAO`
(src/main.cpp lines 266-293): `i` runs over `0..stackCount`, `j` over
`0..sectorCount`. -/
def sphereVertices {α : Type} [LinearOrderedField α] (cos sin : α → α)
    (pi radius : α) (sectorCount stackCount : ℕ) : List α :=
  (List.range (stackCount + 1)).flatMap fun i =>
    (List.range (sectorCount + 1)).flatMap fun j =>
      sphereVertexFloats cos sin pi radius sectorCount stackCount i j

/-- The `indices` vector built by `createSphereVAO` (src/main.cpp lines
295-310): at stack `i`, sector `j` the running counters are
`k1 = i*(sectorCount+1) + j` and `k2 = k1 + sectorCount + 1`; the first
triangle is skipped on the top stack (`i == 0`) and the second on the bottom
stack (`i == stackCount-1`). -/
def sphereIndices (sectorCount stackCount : ℕ) : List ℕ :=
  (List.range stackCount).flatMap fun i =>
    (List.range sectorCount).flatMap fun j =>
      let k1 := i * (sectorCount + 1) + j
      let k2 := k1 + (sectorCount + 1)
      (if i ≠ 0 then [k1, k2, k1 + 1] else []) ++
      (if i ≠ stackCount - 1 then [k1 + 1, k2, k2 + 1] else [])

/-- `int sectors = 16;` (src/main.cpp line 463). -/
def sectors : ℕ := 16

/-- `int stacks = 16;` (src/main.cpp line 464; `stacks` is reserved by a
Mathlib attribute, hence the different name). -/
def numStacks : ℕ := 16

/-- `int sphereIndexCount = 6 * sectors * (stacks - 1);`
(src/main.cpp line 614), the count `main` passes to `glDrawElements`. -/
def sphereIndexCount : ℕ := 6 * sectors * (numStacks - 1)

/-! ## Shader compilation / linking (src/Shader.cpp and src/main.cpp)

The GL side is an oracle: the handles `glCreateShader` / `glCreateProgram`
return and the success flags and info logs `glGetShaderiv` /
`glGetProgramiv` / `glGet*InfoLog` report are inputs.  Each embedded
function returns the value the C++ function returns (or stores in
`program_`) together with the list of lines it prints to `stderr`; the
functions are total, mirroring the straight-line C++ control flow with no
throw or abort. -/

/-- The GL oracle for one shader object: the handle `glCreateShader`
returns, the `GL_COMPILE_STATUS` flag and the info log. -/
structure ShaderOracle where
  shaderHandle : ℕ
  compileSuccess : Bool
  infoLog : String

/-- The GL oracle for a program object: oracles for the two shaders, the
handle `glCreateProgram` returns, the `GL_LINK_STATUS` flag and the link
info log. -/
structure ProgramOracle where
  vertexOracle : ShaderOracle
  fragmentOracle : ShaderOracle
  programHandle : ℕ
  linkSuccess : Bool
  linkLog : String

/-- `compileShader` from src/main.cpp lines 191-203: returns the shader
handle (always) and the `stderr` lines printed (only on failure). -/
def compileShader (o : ShaderOracle) : ℕ × List String :=
  (o.shaderHandle,
   if o.compileSuccess then [] else ["Shader compilation error: " ++ o.infoLog])

/-- `createShaderProgram` from src/main.cpp lines 205-224: compiles both
shaders, links, and returns the program handle (always) together with all
`stderr` lines printed. -/
def createShaderProgram (o : ProgramOracle) : ℕ × List String :=
  let vs := compileShader o.vertexOracle
  let fs := compileShader o.fragmentOracle
  let linkMsgs :=
    if o.linkSuccess then [] else ["Shader program linking error: " ++ o.linkLog]
  (o.programHandle, vs.2 ++ fs.2 ++ linkMsgs)

/-- `Shader::compileShader` (src/Shader.cpp lines 56-71): returns the shader
handle (always) and the `stderr` lines printed (only on failure). -/
def Shader_compileShader (o : ShaderOracle) : ℕ × List String :=
  (o.shaderHandle,
   if o.compileSuccess then [] else ["ERROR: Shader compilation failed: " ++ o.infoLog])

/-- `Shader::linkProgram` (src/Shader.cpp lines 73-88): the value stored in
`program_` (always the handle `glCreateProgram` returned) and the `stderr`
lines printed. -/
def Shader_linkProgram (programHandle : ℕ) (linkSuccess : Bool)
    (linkLog : String) : ℕ × List String :=
  (programHandle,
   if linkSuccess then [] else ["ERROR: Shader linking failed: " ++ linkLog])

/-- The `Shader` constructor (src/Shader.cpp lines 8-19): compile both
shaders, link; the resulting `program_` member and all `stderr` lines. -/
def Shader_ctor (o : ProgramOracle) : ℕ × List String :=
  let vs := Shader_compileShader o.vertexOracle
  let fs := Shader_compileShader o.fragmentOracle
  let lp := Shader_linkProgram o.programHandle o.linkSuccess o.linkLog
  (lp.1, vs.2 ++ fs.2 ++ lp.2)

/-! ## Helper lemmas -/

/-- No single `Camera` member-function call changes `isoCamPos_`. -/
lemma applyOp_isoCamPos (cam : Camera ℝ) (op : CameraOp ℝ) :
    (Camera.applyOp Real.cos Real.sin Real.sqrt Real.pi cam op).isoCamPos =
      cam.isoCamPos := by
  cases op with
  | toggle => rfl
  | updateIso => rfl
  | updateFreeOp dt u d l r => rfl
  | mouse x y =>
      simp only [Camera.applyOp, Camera.handleMouse]
      split <;> rfl

/-- No sequence of `Camera` member-function calls changes `isoCamPos_`. -/
lemma applyOps_isoCamPos (ops : List (CameraOp ℝ)) :
    ∀ cam : Camera ℝ,
      (Camera.applyOps Real.cos Real.sin Real.sqrt Real.pi cam ops).isoCamPos =
        cam.isoCamPos := by
  induction ops with
  | nil => intro cam; rfl
  | cons op rest ih =>
      intro cam
      have h1 : Camera.applyOps Real.cos Real.sin Real.sqrt Real.pi cam (op :: rest) =
          Camera.applyOps Real.cos Real.sin Real.sqrt Real.pi
            (Camera.applyOp Real.cos Real.sin Real.sqrt Real.pi cam op) rest := rfl
      rw [h1, ih, applyOp_isoCamPos]

/-- Length of a `flatMap` over `List.range` as a `Finset` sum. -/
lemma length_flatMap_range {β : Type} (f : ℕ → List β) (n : ℕ) :
    ((List.range n).flatMap f).length = ∑ i ∈ Finset.range n, (f i).length := by
  induction n with
  | zero => simp
  | succ n ih =>
      rw [List.range_succ]
      simp [List.flatMap_append, ih, Finset.sum_range_succ]

/-- The sphere vertex vector holds `(stackCount+1)*(sectorCount+1)` vertices
of 8 floats each. -/
lemma sphereVertices_length {α : Type} [LinearOrderedField α] (cos sin : α → α)
    (pi radius : α) (sectorCount stackCount : ℕ) :
    (sphereVertices cos sin pi radius sectorCount stackCount).length =
      ((stackCount + 1) * (sectorCount + 1)) * 8 := by
  unfold sphereVertices
  rw [length_flatMap_range]
  have hinner : ∀ i,
      ((List.range (sectorCount + 1)).flatMap fun j =>
        sphereVertexFloats cos sin pi radius sectorCount stackCount i j).length =
      (sectorCount + 1) * 8 := by
    intro i
    rw [length_flatMap_range]
    simp [sphereVertexFloats, mul_comm]
  simp only [hinner]
  rw [Finset.sum_const, Finset.card_range, smul_eq_mul, mul_assoc]

/-- The number of `i < kc` with `i ≠ 0`, scaled by 3. -/
lemma sum_ite_ne_zero (kc : ℕ) :
    ∑ i ∈ Finset.range kc, (if i ≠ 0 then (3 : ℕ) else 0) = 3 * (kc - 1) := by
  induction kc with
  | zero => simp
  | succ n ih =>
      rw [Finset.sum_range_succ, ih]
      by_cases h : n = 0
      · simp [h]
      · simp only [h, ne_eq, not_false_iff, if_true]
        omega

/-- The number of `i < kc` with `i ≠ kc - 1`, scaled by 3. -/
lemma sum_ite_ne_last (kc : ℕ) :
    ∑ i ∈ Finset.range kc, (if i ≠ kc - 1 then (3 : ℕ) else 0) = 3 * (kc - 1) := by
  rcases Nat.eq_zero_or_pos kc with h | h
  · simp [h]
  · have h2 : ∑ i ∈ Finset.range kc, (if i = kc - 1 then (3 : ℕ) else 0) = 3 := by
      rw [Finset.sum_ite_eq' (Finset.range kc) (kc - 1) (fun _ => (3 : ℕ))]
      rw [if_pos (Finset.mem_range.mpr (by omega))]
    have hall : ∀ i ∈ Finset.range kc,
        ((if i ≠ kc - 1 then (3 : ℕ) else 0) + (if i = kc - 1 then 3 else 0)) = 3 := by
      intro i _
      by_cases hik : i = kc - 1 <;> simp [hik]
    have h3 : (∑ i ∈ Finset.range kc, (if i ≠ kc - 1 then (3 : ℕ) else 0)) +
        (∑ i ∈ Finset.range kc, (if i = kc - 1 then (3 : ℕ) else 0)) = 3 * kc := by
      rw [← Finset.sum_add_distrib, Finset.sum_congr rfl hall, Finset.sum_const,
        Finset.card_range, smul_eq_mul, mul_comm]
    omega

/-- Length of a conditionally pushed index triple. -/
lemma length_ite_three {c : Prop} [Decidable c] (a b d : ℕ) :
    (if c then [a, b, d] else ([] : List ℕ)).length = if c then 3 else 0 := by
  split <;> simp

/-- The inner index loop at stack `i` pushes 3 indices unless `i = 0` plus
3 indices unless `i = stackCount - 1`, for each of the `sectorCount`
sectors. -/
lemma sphereIndices_row_length (sectorCount stackCount i : ℕ) :
    ((List.range sectorCount).flatMap fun j =>
      let k1 := i * (sectorCount + 1) + j
      let k2 := k1 + (sectorCount + 1)
      (if i ≠ 0 then [k1, k2, k1 + 1] else []) ++
      (if i ≠ stackCount - 1 then [k1 + 1, k2, k2 + 1] else [])).length =
    sectorCount * ((if i ≠ 0 then 3 else 0) + (if i ≠ stackCount - 1 then 3 else 0)) := by
  rw [length_flatMap_range]
  have hrow : ∀ j : ℕ,
      ((if i ≠ 0 then [i * (sectorCount + 1) + j,
          i * (sectorCount + 1) + j + (sectorCount + 1),
          i * (sectorCount + 1) + j + 1] else []) ++
       (if i ≠ stackCount - 1 then [i * (sectorCount + 1) + j + 1,
          i * (sectorCount + 1) + j + (sectorCount + 1),
          i * (sectorCount + 1) + j + (sectorCount + 1) + 1] else [])).length =
      (if i ≠ 0 then 3 else 0) + (if i ≠ stackCount - 1 then 3 else 0) := by
    intro j
    rw [List.length_append, length_ite_three, length_ite_three]
  simp only [hrow]
  rw [Finset.sum_const, Finset.card_range, smul_eq_mul]

/-- The sphere index vector holds `6 * sectorCount * (stackCount - 1)`
entries. -/
lemma sphereIndices_length (sectorCount stackCount : ℕ) :
    (sphereIndices sectorCount stackCount).length =
      6 * sectorCount * (stackCount - 1) := by
  unfold sphereIndices
  rw [length_flatMap_range]
  simp only [sphereIndices_row_length]
  rw [← Finset.mul_sum, Finset.sum_add_distrib, sum_ite_ne_zero, sum_ite_ne_last]
  ring_nf

/-- Every index the triangle loops push is bounded by the total vertex
count. -/
lemma sphereIndices_mem_lt (sectorCount stackCount : ℕ) (idx : ℕ)
    (hidx : idx ∈ sphereIndices sectorCount stackCount) :
    idx < (stackCount + 1) * (sectorCount + 1) := by
  unfold sphereIndices at hidx
  simp only [List.mem_flatMap, List.mem_range] at hidx
  obtain ⟨i, hi, j, hj, hmem⟩ := hidx
  have hij : (i + 1) * (sectorCount + 1) ≤ stackCount * (sectorCount + 1) :=
    Nat.mul_le_mul_right _ (by omega)
  have e1 : (i + 1) * (sectorCount + 1) = i * (sectorCount + 1) + (sectorCount + 1) := by
    ring
  have e2 : (stackCount + 1) * (sectorCount + 1) =
      stackCount * (sectorCount + 1) + (sectorCount + 1) := by
    ring
  rw [e1] at hij
  rw [e2]
  rw [List.mem_append] at hmem
  rcases hmem with hm | hm
  · by_cases h0 : i = 0
    · simp [h0] at hm
    · simp only [h0, ne_eq, not_false_iff, if_true, List.mem_cons, List.mem_singleton,
        List.not_mem_nil, or_false] at hm
      rcases hm with hm | hm | hm <;> omega
  · by_cases h1 : i = stackCount - 1
    · simp [h1] at hm
    · simp only [h1, ne_eq, not_false_iff, if_true, List.mem_cons, List.mem_singleton,
        List.not_mem_nil, or_false] at hm
      rcases hm with hm | hm | hm <;> omega

/-- The yaw/pitch direction vector has squared length 1 (Pythagoras twice). -/
lemma direction_dot_self (yaw pitch : ℝ) :
    Vec3.dot (direction Real.cos Real.sin Real.pi yaw pitch)
      (direction Real.cos Real.sin Real.pi yaw pitch) = 1 := by
  have h1 := Real.sin_sq_add_cos_sq (radians Real.pi yaw)
  have h2 := Real.sin_sq_add_cos_sq (radians Real.pi pitch)
  simp only [direction, Vec3.dot]
  linear_combination (Real.cos (radians Real.pi pitch)) ^ 2 * h1 + h2

/-- `glm::normalize` is the identity on vectors of squared length 1. -/
lemma normalize_of_dot_self_one (v : Vec3 ℝ) (h : Vec3.dot v v = 1) :
    Vec3.normalize Real.sqrt v = v := by
  simp only [Vec3.normalize, h, Real.sqrt_one]
  cases v with
  | mk x y z => simp [Vec3.smul]

/-- The horizontal part of the direction vector has squared length
`cos(radians pitch)^2`. -/
lemma direction_x_z_sq (yaw pitch : ℝ) :
    (direction Real.cos Real.sin Real.pi yaw pitch).x ^ 2 +
      (direction Real.cos Real.sin Real.pi yaw pitch).z ^ 2 =
      Real.cos (radians Real.pi pitch) ^ 2 := by
  have h1 := Real.sin_sq_add_cos_sq (radians Real.pi yaw)
  simp only [direction]
  linear_combination (Real.cos (radians Real.pi pitch)) ^ 2 * h1

/-- For pitch in `[-89, 89]` degrees the cosine of the pitch is positive. -/
lemma cos_radians_pos (pitch : ℝ) (hl : -89 ≤ pitch) (hu : pitch ≤ 89) :
    0 < Real.cos (radians Real.pi pitch) := by
  have h180 : (0 : ℝ) < Real.pi / 180 := by positivity
  have hup : pitch * (Real.pi / 180) ≤ 89 * (Real.pi / 180) :=
    mul_le_mul_of_nonneg_right hu h180.le
  have hlo : (-89) * (Real.pi / 180) ≤ pitch * (Real.pi / 180) :=
    mul_le_mul_of_nonneg_right hl h180.le
  apply Real.cos_pos_of_mem_Ioo
  simp only [radians, Set.mem_Ioo]
  constructor <;> linarith [Real.pi_pos]

/-- The two-sided pitch clamp of `Camera::handleMouse` / `mouse_callback`
lands in `[-89, 89]` from any input. -/
lemma clamp_pitch_bounds (p : ℝ) :
    -89 ≤ (if (if p > 89 then (89 : ℝ) else p) < -89 then -89
           else if p > 89 then 89 else p) ∧
    (if (if p > 89 then (89 : ℝ) else p) < -89 then -89
     else if p > 89 then 89 else p) ≤ 89 := by
  constructor
  · split
    · norm_num
    · split
      · norm_num
      · rename_i hc
        exact not_lt.mp hc
  · split
    · norm_num
    · split
      · norm_num
      · rename_i hc hc2
        linarith [not_lt.mp hc]

/-- A vector with a nonzero horizontal part has nonzero cross product with
the world up vector `(0, 1, 0)`. -/
lemma cross_up_ne_zero (f : Vec3 ℝ) (h : 0 < f.x ^ 2 + f.z ^ 2) :
    Vec3.cross f ⟨0, 1, 0⟩ ≠ ⟨0, 0, 0⟩ := by
  intro hc
  have hx : (Vec3.cross f ⟨0, 1, 0⟩).x = 0 := by rw [hc]
  have hz : (Vec3.cross f ⟨0, 1, 0⟩).z = 0 := by rw [hc]
  simp only [Vec3.cross] at hx hz
  nlinarith [hx, hz]

/-- The invariant behind C10 on `Camera`: clamped pitch, the fixed world up
vector, and a camera front with nonzero horizontal part. -/
def CamInv (c : Camera ℝ) : Prop :=
  -89 ≤ c.pitch ∧ c.pitch ≤ 89 ∧ c.cameraUp = ⟨0, 1, 0⟩ ∧
    0 < c.cameraFront.x ^ 2 + c.cameraFront.z ^ 2

/-- The default-constructed camera satisfies the invariant. -/
lemma camInv_init : CamInv Camera.init := by
  refine ⟨by norm_num [Camera.init], by norm_num [Camera.init], rfl, ?_⟩
  norm_num [Camera.init]

/-- `Camera::handleMouse` preserves the invariant. -/
lemma camInv_handleMouse (c : Camera ℝ) (x y : ℝ) (h : CamInv c) :
    CamInv (c.handleMouse Real.cos Real.sin Real.sqrt Real.pi x y) := by
  obtain ⟨h1, h2, h3, h4⟩ := h
  simp only [Camera.handleMouse]
  split
  · exact ⟨h1, h2, h3, h4⟩
  · refine ⟨(clamp_pitch_bounds _).1, (clamp_pitch_bounds _).2, h3, ?_⟩
    show 0 < (Vec3.normalize Real.sqrt (direction Real.cos Real.sin Real.pi _ _)).x ^ 2 +
      (Vec3.normalize Real.sqrt (direction Real.cos Real.sin Real.pi _ _)).z ^ 2
    rw [normalize_of_dot_self_one _ (direction_dot_self _ _), direction_x_z_sq]
    exact pow_pos (cos_radians_pos _ (clamp_pitch_bounds _).1 (clamp_pitch_bounds _).2) 2

/-- Every `Camera` member-function call preserves the invariant. -/
lemma camInv_applyOp (c : Camera ℝ) (op : CameraOp ℝ) (h : CamInv c) :
    CamInv (Camera.applyOp Real.cos Real.sin Real.sqrt Real.pi c op) := by
  obtain ⟨h1, h2, h3, h4⟩ := h
  cases op with
  | toggle => exact ⟨h1, h2, h3, h4⟩
  | updateIso => exact ⟨h1, h2, h3, h4⟩
  | updateFreeOp dt u d l r => exact ⟨h1, h2, h3, h4⟩
  | mouse x y => exact camInv_handleMouse c x y ⟨h1, h2, h3, h4⟩

/-- Every sequence of `Camera` member-function calls preserves the
invariant. -/
lemma camInv_applyOps (ops : List (CameraOp ℝ)) :
    ∀ c : Camera ℝ, CamInv c →
      CamInv (Camera.applyOps Real.cos Real.sin Real.sqrt Real.pi c ops) := by
  induction ops with
  | nil => intro c h; exact h
  | cons op rest ih =>
      intro c h
      exact ih (Camera.applyOp Real.cos Real.sin Real.sqrt Real.pi c op)
        (camInv_applyOp c op h)

/-- The invariant behind C10 on the globals of src/main.cpp. -/
def MainInv (st : MainState ℝ) : Prop :=
  -89 ≤ st.pitch ∧ st.pitch ≤ 89 ∧ st.cameraUp = ⟨0, 1, 0⟩ ∧
    0 < st.cameraFront.x ^ 2 + st.cameraFront.z ^ 2

/-- The initial globals of src/main.cpp satisfy the invariant. -/
lemma mainInv_init : MainInv initMainState := by
  refine ⟨by norm_num [initMainState], by norm_num [initMainState], rfl, ?_⟩
  norm_num [initMainState]

/-- `mouse_callback` preserves the invariant. -/
lemma mainInv_mouse_callback (st : MainState ℝ) (x y : ℝ) (h : MainInv st) :
    MainInv (mouse_callback Real.cos Real.sin Real.sqrt Real.pi st x y) := by
  obtain ⟨h1, h2, h3, h4⟩ := h
  simp only [mouse_callback]
  split
  · exact ⟨h1, h2, h3, h4⟩
  · refine ⟨(clamp_pitch_bounds _).1, (clamp_pitch_bounds _).2, h3, ?_⟩
    show 0 < (Vec3.normalize Real.sqrt (direction Real.cos Real.sin Real.pi _ _)).x ^ 2 +
      (Vec3.normalize Real.sqrt (direction Real.cos Real.sin Real.pi _ _)).z ^ 2
    rw [normalize_of_dot_self_one _ (direction_dot_self _ _), direction_x_z_sq]
    exact pow_pos (cos_radians_pos _ (clamp_pitch_bounds _).1 (clamp_pitch_bounds _).2) 2

/-- Every src/main.cpp event preserves the invariant. -/
lemma mainInv_mainStep (st : MainState ℝ) (e : MainEvent ℝ) (h : MainInv st) :
    MainInv (mainStep Real.cos Real.sin Real.sqrt Real.pi st e) := by
  obtain ⟨h1, h2, h3, h4⟩ := h
  cases e with
  | scroll yoffset => exact ⟨h1, h2, h3, h4⟩
  | mouse x y => exact mainInv_mouse_callback st x y ⟨h1, h2, h3, h4⟩
  | frame cKey keys =>
      show MainInv (handleMovement Real.sqrt (handleCameraToggle st cKey) keys)
      have htog : MainInv (handleCameraToggle st cKey) := by
        simp only [handleCameraToggle]
        split <;> split <;> exact ⟨h1, h2, h3, h4⟩
      obtain ⟨g1, g2, g3, g4⟩ := htog
      simp only [handleMovement]
      split <;> exact ⟨g1, g2, g3, g4⟩

/-- Every sequence of src/main.cpp events preserves the invariant. -/
lemma mainInv_runMain (es : List (MainEvent ℝ)) :
    ∀ st : MainState ℝ, MainInv st →
      MainInv (runMain Real.cos Real.sin Real.sqrt Real.pi st es) := by
  induction es with
  | nil => intro st h; exact h
  | cons e rest ih =>
      intro st h
      exact ih (mainStep Real.cos Real.sin Real.sqrt Real.pi st e)
        (mainInv_mainStep st e h)

/-! ## Claim theorems -/

/-- C1: for `sectorCount >= 1` and `stackCount >= 1`, `createSphereVAO`
generates exactly `6 * sectorCount * (stackCount - 1)` indices and
`(stackCount+1)*(sectorCount+1)` vertices of 8 floats each, and the
constant `sphereIndexCount = 6 * sectors * (stacks - 1)` that `main` passes
to `glDrawElements` equals the number of indices actually generated at
`sectors = stacks = 16`. -/
theorem sphere_counts {α : Type} [LinearOrderedField α] (cos sin : α → α)
    (pi radius : α) (sectorCount stackCount : ℕ)
    (hs : 1 ≤ sectorCount) (hk : 1 ≤ stackCount) :
    (sphereIndices sectorCount stackCount).length =
      6 * sectorCount * (stackCount - 1) ∧
    (sphereVertices cos sin pi radius sectorCount stackCount).length =
      ((stackCount + 1) * (sectorCount + 1)) * 8 ∧
    sphereIndexCount = (sphereIndices sectors numStacks).length := by
  refine ⟨sphereIndices_length sectorCount stackCount,
    sphereVertices_length cos sin pi radius sectorCount stackCount, ?_⟩
  rw [sphereIndices_length]
  rfl

/-- C1 witness: the counts at a concrete instantiation
(`α := ℚ`, `sectorCount = stackCount = 1`). -/
theorem sphere_counts_witness :
    (sphereIndices 1 1).length = 6 * 1 * (1 - 1) ∧
    (sphereVertices (fun _ : ℚ => 0) (fun _ => 0) 0 1 1 1).length =
      ((1 + 1) * (1 + 1)) * 8 ∧
    sphereIndexCount = (sphereIndices sectors numStacks).length :=
  sphere_counts (fun _ : ℚ => 0) (fun _ => 0) 0 1 1 1 (by decide) (by decide)

/-- C9: for `sectorCount >= 1` and `stackCount >= 1`, every index the
triangle-generation loops of `createSphereVAO` push is strictly below the
number of generated vertices, `(stackCount+1)*(sectorCount+1)`. -/
theorem sphereIndices_in_bounds (sectorCount stackCount : ℕ)
    (hs : 1 ≤ sectorCount) (hk : 1 ≤ stackCount) (idx : ℕ)
    (hidx : idx ∈ sphereIndices sectorCount stackCount) :
    idx < (stackCount + 1) * (sectorCount + 1) :=
  sphereIndices_mem_lt sectorCount stackCount idx hidx

/-- C9 witness: index 4 of the `sectorCount = 1`, `stackCount = 2` sphere is
below the vertex count 6. -/
theorem sphereIndices_in_bounds_witness : (4 : ℕ) < (2 + 1) * (1 + 1) :=
  sphereIndices_in_bounds 1 2 (by decide) (by decide) 4 (by decide)

/-- C3: `Camera::getViewMatrix` returns `lookAt(isoCamPos_, (0,0,0),
cameraUp_)` in Isometric mode and `lookAt(freeCamPos_, freeCamPos_ +
cameraFront_, cameraUp_)` in Free mode, and the per-frame view matrix of
`main` is chosen the same way from `isFreeCamera`. -/
theorem getViewMatrix_spec :
    (∀ cam : Camera ℝ,
      cam.getViewMatrix Real.sqrt =
        match cam.mode with
        | CameraMode.Isometric => lookAt Real.sqrt cam.isoCamPos ⟨0, 0, 0⟩ cam.cameraUp
        | CameraMode.Free =>
            lookAt Real.sqrt cam.freeCamPos (Vec3.add cam.freeCamPos cam.cameraFront)
              cam.cameraUp) ∧
    (∀ st : MainState ℝ,
      computeView Real.sqrt st =
        if st.isFreeCamera then
          lookAt Real.sqrt st.freeCamPos (Vec3.add st.freeCamPos st.cameraFront) st.cameraUp
        else lookAt Real.sqrt st.cameraPos ⟨0, 0, 0⟩ ⟨0, 1, 0⟩) := by
  constructor
  · intro cam
    cases h : cam.mode <;> simp [Camera.getViewMatrix, h]
  · intro st
    cases h : st.isFreeCamera <;> simp [computeView, h]

/-- C4: when shader compilation or program linking fails the only failure
handling is the `stderr` message: `compileShader` (both the src/main.cpp
free function and `Shader::compileShader`) returns the shader handle
whether or not compilation succeeded, `createShaderProgram` /
`Shader::linkProgram` still produce and keep the program handle, and the
`stderr` log is empty exactly when everything succeeded (the functions are
total - no throw, abort or error return). -/
theorem shader_failure_prints_only :
    (∀ (n : ℕ) (l : String),
      (compileShader ⟨n, true, l⟩).1 = n ∧
      (compileShader ⟨n, false, l⟩).1 = n ∧
      (compileShader ⟨n, true, l⟩).2 = [] ∧
      (compileShader ⟨n, false, l⟩).2 = ["Shader compilation error: " ++ l] ∧
      (Shader_compileShader ⟨n, true, l⟩).1 = n ∧
      (Shader_compileShader ⟨n, false, l⟩).1 = n ∧
      (Shader_compileShader ⟨n, true, l⟩).2 = [] ∧
      (Shader_compileShader ⟨n, false, l⟩).2 =
        ["ERROR: Shader compilation failed: " ++ l] ∧
      (Shader_linkProgram n true l).1 = n ∧
      (Shader_linkProgram n false l).1 = n ∧
      (Shader_linkProgram n true l).2 = [] ∧
      (Shader_linkProgram n false l).2 = ["ERROR: Shader linking failed: " ++ l]) ∧
    (∀ o : ProgramOracle,
      (createShaderProgram o).1 = o.programHandle ∧
      (Shader_ctor o).1 = o.programHandle ∧
      (createShaderProgram o).2 =
        (compileShader o.vertexOracle).2 ++ (compileShader o.fragmentOracle).2 ++
          (if o.linkSuccess then []
           else ["Shader program linking error: " ++ o.linkLog]) ∧
      (Shader_ctor o).2 =
        (Shader_compileShader o.vertexOracle).2 ++
          (Shader_compileShader o.fragmentOracle).2 ++
          (Shader_linkProgram o.programHandle o.linkSuccess o.linkLog).2) := by
  refine ⟨fun n l => ?_, fun o => ?_⟩
  · exact ⟨rfl, rfl, rfl, rfl, rfl, rfl, rfl, rfl, rfl, rfl, rfl, rfl⟩
  · exact ⟨rfl, rfl, rfl, rfl⟩

/-- C5: `Camera::toggleMode` maps Isometric to Free and Free to Isometric,
so two consecutive toggles restore the original mode; it changes no state
other than the mode and the `firstMouse` flag; and in `main` one C-key
press (with `cPressed` not yet latched) flips `isFreeCamera`. -/
theorem toggleMode_spec :
    (∀ cam : Camera ℝ,
      (cam.toggleMode.toggleMode).mode = cam.mode ∧
      cam.toggleMode.mode =
        (match cam.mode with
         | CameraMode.Isometric => CameraMode.Free
         | CameraMode.Free => CameraMode.Isometric) ∧
      cam.toggleMode.firstMouse = true ∧
      cam.toggleMode.isoCamPos = cam.isoCamPos ∧
      cam.toggleMode.freeCamPos = cam.freeCamPos ∧
      cam.toggleMode.cameraFront = cam.cameraFront ∧
      cam.toggleMode.cameraUp = cam.cameraUp ∧
      cam.toggleMode.yaw = cam.yaw ∧
      cam.toggleMode.pitch = cam.pitch ∧
      cam.toggleMode.lastX = cam.lastX ∧
      cam.toggleMode.lastY = cam.lastY ∧
      cam.toggleMode.freeCamSpeed = cam.freeCamSpeed ∧
      cam.toggleMode.mouseSensitivity = cam.mouseSensitivity ∧
      cam.toggleMode.zoomLevel = cam.zoomLevel) ∧
    (∀ st : MainState ℝ,
      (handleCameraToggle { st with cPressed := false } true).isFreeCamera =
        !st.isFreeCamera) := by
  constructor
  · intro cam
    cases h : cam.mode <;>
      simp [Camera.toggleMode, h]
  · intro st
    simp [handleCameraToggle]

/-- C6: each render-loop iteration updates at most one of the two movable
positions: in isometric mode the movement section leaves every global but
`playerPos` unchanged (in particular `freeCamPos`), and in free-camera mode
it leaves every global but `freeCamPos` unchanged (in particular
`playerPos`). -/
theorem handleMovement_exclusive :
    ∀ (st : MainState ℝ) (keys : Keys),
      if st.isFreeCamera then
        handleMovement Real.sqrt st keys =
          { st with freeCamPos := (handleMovement Real.sqrt st keys).freeCamPos }
      else
        handleMovement Real.sqrt st keys =
          { st with playerPos := (handleMovement Real.sqrt st keys).playerPos } := by
  intro st keys
  cases h : st.isFreeCamera <;> simp [handleMovement, h]

/-- C7: the isometric camera eye is fixed: no `Camera` operation
(`toggleMode`, `updateIsometric`, `updateFree`, `handleMouse`) modifies
`isoCamPos_`; starting from the constructor it stays `(2,2,2)` after any
sequence of operations; and `updateIsometric` modifies no state at all. -/
theorem isoCamPos_fixed :
    (∀ (cam : Camera ℝ) (op : CameraOp ℝ),
      (Camera.applyOp Real.cos Real.sin Real.sqrt Real.pi cam op).isoCamPos =
        cam.isoCamPos) ∧
    (∀ cam : Camera ℝ, cam.updateIsometric = cam) ∧
    (∀ ops : List (CameraOp ℝ),
      (Camera.applyOps Real.cos Real.sin Real.sqrt Real.pi Camera.init ops).isoCamPos =
        ⟨2, 2, 2⟩) := by
  refine ⟨applyOp_isoCamPos, fun cam => rfl, fun ops => ?_⟩
  rw [applyOps_isoCamPos]
  rfl

/-- C2: after every `Camera::handleMouse` call in Free mode (and every
`mouse_callback` call with `isFreeCamera` true) the camera front vector is
the normalization of the yaw/pitch direction vector computed from the
updated yaw and pitch, and is a unit vector (its dot product with itself is
1). -/
theorem handleMouse_front_unit :
    (∀ (cam : Camera ℝ) (x y : ℝ), cam.mode = CameraMode.Free →
      let cam' := cam.handleMouse Real.cos Real.sin Real.sqrt Real.pi x y;
      cam'.cameraFront =
        Vec3.normalize Real.sqrt
          (direction Real.cos Real.sin Real.pi cam'.yaw cam'.pitch) ∧
      Vec3.dot cam'.cameraFront cam'.cameraFront = 1) ∧
    (∀ (st : MainState ℝ) (x y : ℝ), st.isFreeCamera = true →
      let st' := mouse_callback Real.cos Real.sin Real.sqrt Real.pi st x y;
      st'.cameraFront =
        Vec3.normalize Real.sqrt
          (direction Real.cos Real.sin Real.pi st'.yaw st'.pitch) ∧
      Vec3.dot st'.cameraFront st'.cameraFront = 1) := by
  constructor
  · intro cam x y hm
    simp only [Camera.handleMouse, hm, ne_eq, not_true_eq_false, if_false]
    refine ⟨trivial, ?_⟩
    show Vec3.dot (Vec3.normalize Real.sqrt (direction Real.cos Real.sin Real.pi _ _))
      (Vec3.normalize Real.sqrt (direction Real.cos Real.sin Real.pi _ _)) = 1
    rw [normalize_of_dot_self_one _ (direction_dot_self _ _)]
    exact direction_dot_self _ _
  · intro st x y hm
    simp only [mouse_callback, hm, Bool.not_true, Bool.false_eq_true, if_false]
    refine ⟨trivial, ?_⟩
    show Vec3.dot (Vec3.normalize Real.sqrt (direction Real.cos Real.sin Real.pi _ _))
      (Vec3.normalize Real.sqrt (direction Real.cos Real.sin Real.pi _ _)) = 1
    rw [normalize_of_dot_self_one _ (direction_dot_self _ _)]
    exact direction_dot_self _ _

/-- C2 witness: the property at the concrete camera and global state in
Free mode with mouse position `(0, 0)`. -/
theorem handleMouse_front_unit_witness :
    (let cam' := Camera.handleMouse Real.cos Real.sin Real.sqrt Real.pi
        { Camera.init with mode := CameraMode.Free } 0 0;
     cam'.cameraFront =
        Vec3.normalize Real.sqrt
          (direction Real.cos Real.sin Real.pi cam'.yaw cam'.pitch) ∧
      Vec3.dot cam'.cameraFront cam'.cameraFront = 1) ∧
    (let st' := mouse_callback Real.cos Real.sin Real.sqrt Real.pi
        { initMainState with isFreeCamera := true } 0 0;
     st'.cameraFront =
        Vec3.normalize Real.sqrt
          (direction Real.cos Real.sin Real.pi st'.yaw st'.pitch) ∧
      Vec3.dot st'.cameraFront st'.cameraFront = 1) :=
  ⟨handleMouse_front_unit.1 { Camera.init with mode := CameraMode.Free } 0 0 rfl,
   handleMouse_front_unit.2 { initMainState with isFreeCamera := true } 0 0 rfl⟩

/-- C8: every vertex position generated by `createSphereVAO` lies on the
sphere of the given radius centred at the origin (in exact real
arithmetic), and the stored normal equals the position scaled by
`1/radius` and is a unit vector. -/
theorem sphere_vertex_on_sphere (radius : ℝ) (hr : radius ≠ 0)
    (sectorCount stackCount i j : ℕ) :
    (let w := mkSphereVertex Real.cos Real.sin Real.pi radius sectorCount stackCount i j;
     w.px ^ 2 + w.py ^ 2 + w.pz ^ 2 = radius ^ 2 ∧
     w.nx = w.px * (1 / radius) ∧
     w.ny = w.py * (1 / radius) ∧
     w.nz = w.pz * (1 / radius) ∧
     w.nx ^ 2 + w.ny ^ 2 + w.nz ^ 2 = 1) := by
  intro w
  have h1 := Real.sin_sq_add_cos_sq ((j : ℝ) * 2 * Real.pi / (sectorCount : ℝ))
  have h2 := Real.sin_sq_add_cos_sq (Real.pi / 2 - (i : ℝ) * Real.pi / (stackCount : ℝ))
  have hsq : w.px ^ 2 + w.py ^ 2 + w.pz ^ 2 = radius ^ 2 := by
    simp only [w, mkSphereVertex]
    linear_combination
      (radius ^ 2 *
        (Real.cos (Real.pi / 2 - (i : ℝ) * Real.pi / (stackCount : ℝ))) ^ 2) * h1 +
      radius ^ 2 * h2
  refine ⟨hsq, rfl, rfl, rfl, ?_⟩
  have hn : w.nx ^ 2 + w.ny ^ 2 + w.nz ^ 2 =
      (w.px ^ 2 + w.py ^ 2 + w.pz ^ 2) * (1 / radius) ^ 2 := by
    simp only [w, mkSphereVertex]
    ring
  rw [hn, hsq]
  field_simp

/-- C8 witness: the property at radius 1, `sectorCount = stackCount = 1`,
vertex `(0, 0)`. -/
theorem sphere_vertex_on_sphere_witness :
    (let w := mkSphereVertex Real.cos Real.sin Real.pi 1 1 1 0 0;
     w.px ^ 2 + w.py ^ 2 + w.pz ^ 2 = (1 : ℝ) ^ 2 ∧
     w.nx = w.px * (1 / 1) ∧
     w.ny = w.py * (1 / 1) ∧
     w.nz = w.pz * (1 / 1) ∧
     w.nx ^ 2 + w.ny ^ 2 + w.nz ^ 2 = 1) :=
  sphere_vertex_on_sphere 1 one_ne_zero 1 1 0 0

/-- C10: from the initial state (pitch 0, front `(0,0,-1)`), after any
sequence of `Camera` operations (resp. src/main.cpp events) the pitch stays
in `[-89, 89]` degrees and the camera front is never parallel to the world
up vector: `cross(cameraFront, cameraUp)` is never the zero vector, so the
strafe computation never normalizes the zero vector. -/
theorem pitch_clamped_strafe_safe :
    (∀ ops : List (CameraOp ℝ),
      let c := Camera.applyOps Real.cos Real.sin Real.sqrt Real.pi Camera.init ops;
      -89 ≤ c.pitch ∧ c.pitch ≤ 89 ∧
      Vec3.cross c.cameraFront c.cameraUp ≠ ⟨0, 0, 0⟩) ∧
    (∀ es : List (MainEvent ℝ),
      let st := runMain Real.cos Real.sin Real.sqrt Real.pi initMainState es;
      -89 ≤ st.pitch ∧ st.pitch ≤ 89 ∧
      Vec3.cross st.cameraFront st.cameraUp ≠ ⟨0, 0, 0⟩) := by
  constructor
  · intro ops
    obtain ⟨h1, h2, h3, h4⟩ := camInv_applyOps ops Camera.init camInv_init
    refine ⟨h1, h2, ?_⟩
    rw [h3]
    exact cross_up_ne_zero _ h4
  · intro es
    obtain ⟨h1, h2, h3, h4⟩ := mainInv_runMain es initMainState mainInv_init
    refine ⟨h1, h2, ?_⟩
    rw [h3]
    exact cross_up_ne_zero _ h4

end TacticGame
